import Mathlib

/-!
Shallow embedding of the Framework-i sources: `src/frame.js` and the
tutorial document whose code blocks contain a second variant of
`subscribe`.  The repository has two subsystems:

* a Flux-style store (`createStore` with `getState` / `dispatch` /
  `subscribe`), and
* a virtual-node model (`createElement`) with a materializer
  (`renderElement`) and a renderer (`render`).

JS mutable state is embedded by explicit state passing: each store
operation takes the store value and returns the updated store, and
listener invocation is made observable by returning the list of listener
handles called, in call order.  Listeners are opaque handles of a type
`Λ` with decidable equality, mirroring JS function-reference identity as
used by `filter (l => l !== listener)` and `indexOf`.

JS objects (the `props` mappings) are embedded as ordered association
lists (`Props`) with unique keys in any object reachable from JS; `jsSet`
models `{ ...props, k: v }` (update the value at the first occurrence of
the key, else append, as JS object spread does on objects with unique
keys) and `jsLookup` models property access.  The DOM is embedded as a
tree of `DOMNode` values; a container is its child list (`DOMList`).
`renderElement` returns `Option DOMNode`, with `none` modelling a thrown
JS exception (reached when `value.forEach` is applied to a non-array
value found under the reserved `children` key).
-/

namespace Frame

/-- Action object `{ type: string, ...payload }`: a `type` string plus an
opaque optional payload, interpreted only by the reducer. -/
structure Action (π : Type) where
  type : String
  payload : Option π
deriving DecidableEq

/-- Sentinel action `{ type: '__INIT__' }` used by `createStore`. -/
def initAction (π : Type) : Action π := { type := "__INIT__", payload := none }

/-- Store state as closed over by `createStore`: the current state slot
`state` (the JS `let state`), the listener array (the JS `const listeners`),
and the reducer captured at construction.  The reducer's first argument is
`Option σ` because the JS code passes `undefined` as previous state exactly
once, at initialization. -/
structure Store (σ Λ π : Type) where
  reducer : Option σ → Action π → σ
  state : σ
  listeners : List Λ

/-- Embedding of `createStore(reducer)` from `src/frame.js`:
`let state = reducer(undefined, { type: '__INIT__' }); const listeners = [];`. -/
def createStore {σ Λ π : Type} (reducer : Option σ → Action π → σ) : Store σ Λ π :=
  { reducer := reducer, state := reducer none (initAction π), listeners := [] }

/-- Embedding of `getState: () => state`. -/
def Store.getState {σ Λ π : Type} (s : Store σ Λ π) : σ := s.state

/-- Embedding of `dispatch`: `state = reducer(state, action);
listeners.forEach(listener => listener());`.  Returns the updated store
together with the call log: the list of listener handles invoked, in
order (`forEach` calls each array entry exactly once, left to right). -/
def Store.dispatch {σ Λ π : Type} (s : Store σ Λ π) (a : Action π) : Store σ Λ π × List Λ :=
  ({ s with state := s.reducer (some s.state) a }, s.listeners)

/-- Embedding of the registration half of `subscribe`:
`listeners.push(listener)`. -/
def Store.subscribe {σ Λ π : Type} (s : Store σ Λ π) (l : Λ) : Store σ Λ π :=
  { s with listeners := s.listeners ++ [l] }

/-- Embedding of invoking the capability returned by `subscribe` in
`src/frame.js`: `() => listeners.filter(l => l !== listener)`.  The filter
result is returned but never assigned back to `listeners`, so the store is
unchanged; the second component is the discarded filtered array. -/
def frameUnsubscribe {σ Λ π : Type} [DecidableEq Λ] (s : Store σ Λ π) (l : Λ) :
    Store σ Λ π × List Λ :=
  (s, s.listeners.filter (fun x => x ≠ l))

/-- Model of `Array.prototype.indexOf`: index of the first occurrence of
`l`, `none` when absent (the JS `-1` result). -/
def jsIndexOf {Λ : Type} [DecidableEq Λ] (l : Λ) : List Λ → Option Nat
  | [] => none
  | x :: xs => if x = l then some 0 else (jsIndexOf l xs).map (fun i => i + 1)

/-- Embedding of invoking the capability returned by `subscribe` in the
tutorial document's variant:
`const index = listeners.indexOf(listener); if (index > -1) listeners.splice(index, 1);`
(`indexOf` finds the first occurrence; `splice(index, 1)` removes it;
when `index === -1` nothing happens). -/
def spliceUnsubscribe {σ Λ π : Type} [DecidableEq Λ] (s : Store σ Λ π) (l : Λ) :
    Store σ Λ π :=
  match jsIndexOf l s.listeners with
  | some i => { s with listeners := s.listeners.eraseIdx i }
  | none => s

/-- Iterated subscription of the same listener handle `n` times. -/
def Store.subscribeN {σ Λ π : Type} (s : Store σ Λ π) (l : Λ) : Nat → Store σ Λ π
  | 0 => s
  | n + 1 => (s.subscribeN l n).subscribe l

/-- Counter reducer from the spec's test scenario:
`(s = 0, a) => a.type === 'INC' ? s + 1 : s`, with the JS default
parameter `s = 0` rendered as `getD 0`. -/
def incReducer (s : Option Nat) (a : Action Unit) : Nat :=
  if a.type = "INC" then s.getD 0 + 1 else s.getD 0

mutual
/-- Virtual node: a raw string (text node) or an element object
`{ type, props }` as built by `createElement`.  The `props` slot is
`OptProps.none` when the object carries no usable `props` value
(absent / `null` / `undefined`, the values the source guards with
`vNode.props || {}`). -/
inductive VNode : Type where
  | text : String → VNode
  | elem : String → OptProps → VNode
deriving DecidableEq
/-- Optional props object: `none` stands for JS `undefined` or `null`. -/
inductive OptProps : Type where
  | none : OptProps
  | some : Props → OptProps
deriving DecidableEq
/-- Props object: an ordered association list of string keys to values,
as `Object.entries` exposes a JS object. -/
inductive Props : Type where
  | nil : Props
  | cons : String → PropVal → Props → Props
deriving DecidableEq
/-- Property value: a plain attribute string, or an array of child
virtual nodes (the value stored under the reserved `children` key). -/
inductive PropVal : Type where
  | str : String → PropVal
  | nodes : VNodeList → PropVal
deriving DecidableEq
/-- Array of virtual nodes (the variadic `...children` list). -/
inductive VNodeList : Type where
  | nil : VNodeList
  | cons : VNode → VNodeList → VNodeList
deriving DecidableEq
end

mutual
/-- Materialized DOM node: a text node or an element with its assigned
properties and its appended child list. -/
inductive DOMNode : Type where
  | textNode : String → DOMNode
  | element : String → Props → DOMList → DOMNode
deriving DecidableEq
/-- List of DOM nodes; also used as the child list of a container. -/
inductive DOMList : Type where
  | nil : DOMList
  | cons : DOMNode → DOMList → DOMList
deriving DecidableEq
end

/-- Concatenation of DOM node lists. -/
def DOMList.append : DOMList → DOMList → DOMList
  | DOMList.nil, ds => ds
  | DOMList.cons d rest, ds => DOMList.cons d (rest.append ds)

/-- Key membership test on a props object (`k in obj`). -/
def hasKey : Props → String → Bool
  | Props.nil, _ => false
  | Props.cons k0 _ rest, k => (k0 == k) || hasKey rest k

/-- Property access `obj[k]`: the value at the first occurrence of the
key, `none` when absent. -/
def jsLookup : Props → String → Option PropVal
  | Props.nil, _ => none
  | Props.cons k0 v0 rest, k => if k0 == k then some v0 else jsLookup rest k

/-- Semantics of `{ ...m, k: v }` / `m[k] = v` on a JS object: if the key
is present its value is replaced in place (position preserved), otherwise
the new entry is appended at the end. -/
def jsSet : Props → String → PropVal → Props
  | Props.nil, k, v => Props.cons k v Props.nil
  | Props.cons k0 v0 rest, k, v =>
    if k0 == k then Props.cons k0 v rest
    else Props.cons k0 v0 (jsSet rest k v)

/-- Concatenation of props lists. -/
def Props.append : Props → Props → Props
  | Props.nil, q => q
  | Props.cons k v rest, q => Props.cons k v (rest.append q)

/-- Key list of a props object, in order. -/
def Props.keys : Props → List String
  | Props.nil => []
  | Props.cons k _ rest => k :: rest.keys

/-- All keys pairwise distinct — true of every props list that denotes an
actual JS object. -/
def distinctKeys : Props → Bool
  | Props.nil => true
  | Props.cons k _ rest => !(hasKey rest k) && distinctKeys rest

/-- Embedding of `createElement(type, props = {}, ...children)` from
`src/frame.js`: `return { type, props: { ...props, children } }`.  The
variadic arguments arrive collected into the single ordered list
`children` (one level of collection, exactly as a JS rest parameter),
and the spread-with-override is `jsSet props "children" ...`. -/
def createElement (type : String) (props : Props) (children : VNodeList) : VNode :=
  VNode.elem type (OptProps.some (jsSet props "children" (PropVal.nodes children)))

mutual
/-- Embedding of `renderElement(vNode)` from `src/frame.js`.  A string
becomes `document.createTextNode(vNode)`.  Otherwise an element of tag
`vNode.type` is created and `Object.entries(vNode.props || {})` is walked
in order: the entry under the key `children` has each member rendered
recursively and appended (`value.forEach(...)` — on a non-array value
this throws, embedded as `none`), every other entry is assigned as a
property (`element[key] = value`).  When `props` is absent the guard
`vNode.props || {}` yields `{}`, whose entry walk does nothing, so the
bare element is returned. -/
def renderElement : VNode → Option DOMNode
  | VNode.text s => some (DOMNode.textNode s)
  | VNode.elem t OptProps.none => some (DOMNode.element t Props.nil DOMList.nil)
  | VNode.elem t (OptProps.some es) =>
    match applyEntries es Props.nil DOMList.nil with
    | some (ps, cs) => some (DOMNode.element t ps cs)
    | none => none
termination_by structural v => v

/-- The `Object.entries(...).forEach` loop of `renderElement`, walking the
remaining entries while carrying the properties assigned so far and the
children appended so far. -/
def applyEntries : Props → Props → DOMList → Option (Props × DOMList)
  | Props.nil, ps, cs => some (ps, cs)
  | Props.cons k v rest, ps, cs =>
    if k == "children" then
      match v with
      | PropVal.nodes vs =>
        match renderList vs with
        | some ds => applyEntries rest ps (cs.append ds)
        | none => none
      | PropVal.str _ => none
    else
      applyEntries rest (jsSet ps k v) cs
termination_by structural es _ _ => es

/-- Rendering of a child array, in order; fails as soon as one child
fails. -/
def renderList : VNodeList → Option DOMList
  | VNodeList.nil => some DOMList.nil
  | VNodeList.cons v vs =>
    match renderElement v, renderList vs with
    | some d, some ds => some (DOMList.cons d ds)
    | _, _ => none
termination_by structural vs => vs
end

/-- Embedding of `render(vNode, container)` from `src/frame.js`:
`container.innerHTML = ''` discards every existing child, then
`container.appendChild(renderElement(vNode))` appends the single
materialized subtree.  `none` models `renderElement` throwing. -/
def render (vNode : VNode) (container : DOMList) : Option DOMList :=
  let cleared : DOMList := DOMList.nil
  (renderElement vNode).map (fun d => cleared.append (DOMList.cons d DOMList.nil))

mutual
/-- Data-model invariant of VNode trees (spec §3): every element's props
object has pairwise-distinct keys (true of every JS object) and its
reserved `children` key, when present, holds an array of well-formed
virtual nodes. -/
def wf : VNode → Bool
  | VNode.text _ => true
  | VNode.elem _ OptProps.none => true
  | VNode.elem _ (OptProps.some es) => distinctKeys es && wfEntries es
termination_by structural v => v

/-- Entry-wise part of the VNode invariant. -/
def wfEntries : Props → Bool
  | Props.nil => true
  | Props.cons k v rest => wfEntry k v && wfEntries rest
termination_by structural es => es

/-- One entry is acceptable when it is not under the reserved `children`
key, or is a well-formed node array under it. -/
def wfEntry : String → PropVal → Bool
  | k, PropVal.str _ => !(k == "children")
  | k, PropVal.nodes vs => if k == "children" then wfList vs else true
termination_by structural _ v => v

/-- The VNode invariant on arrays of virtual nodes. -/
def wfList : VNodeList → Bool
  | VNodeList.nil => true
  | VNodeList.cons v vs => wf v && wfList vs
termination_by structural vs => vs
end

/-- Props object with the reserved `children` entries removed — the
attribute entries, in order, with their values. -/
def stripChildren : Props → Props
  | Props.nil => Props.nil
  | Props.cons k v rest =>
    if k == "children" then stripChildren rest
    else Props.cons k v (stripChildren rest)

mutual
/-- Modelled from the spec (§4.2 Materializer guarantee): the output tree
that is structurally isomorphic to the input VNode tree — same tag, the
non-`children` attribute entries with their values in order, the children
materialized recursively in order, and text content kept exactly. -/
def specMaterialize : VNode → DOMNode
  | VNode.text s => DOMNode.textNode s
  | VNode.elem t OptProps.none => DOMNode.element t Props.nil DOMList.nil
  | VNode.elem t (OptProps.some es) =>
    DOMNode.element t (stripChildren es) (specChildren es)
termination_by structural v => v

/-- The materialized children contributed by the entries of a props
object, in entry order. -/
def specChildren : Props → DOMList
  | Props.nil => DOMList.nil
  | Props.cons k v rest =>
    (if k == "children" then specChildValue v else DOMList.nil).append
      (specChildren rest)
termination_by structural es => es

/-- The materialized children contributed by one `children` value. -/
def specChildValue : PropVal → DOMList
  | PropVal.str _ => DOMList.nil
  | PropVal.nodes vs => specList vs
termination_by structural v => v

/-- Pointwise materialization of a node array. -/
def specList : VNodeList → DOMList
  | VNodeList.nil => DOMList.nil
  | VNodeList.cons v vs => DOMList.cons (specMaterialize v) (specList vs)
termination_by structural vs => vs
end

/-- The property assignments performed by the entry walk of
`renderElement`: every non-`children` entry assigned left to right onto
the properties assigned so far. -/
def assignProps : Props → Props → Props
  | ps, Props.nil => ps
  | ps, Props.cons k v rest =>
    if k == "children" then assignProps ps rest
    else assignProps (jsSet ps k v) rest

/-- Sample tree from the spec's test scenario (§8):
`createElement('div', {id:'a'}, 'hello', createElement('span', {}, 'world'))`. -/
def demoTree : VNode :=
  createElement "div" (Props.cons "id" (PropVal.str "a") Props.nil)
    (VNodeList.cons (VNode.text "hello")
      (VNodeList.cons
        (createElement "span" Props.nil
          (VNodeList.cons (VNode.text "world") VNodeList.nil))
        VNodeList.nil))

end Frame

namespace Frame

/-- The `indexOf` / `splice(index, 1)` pair removes exactly the first
occurrence, i.e. it is `List.erase`. -/
theorem spliceUnsubscribe_eq_erase {σ Λ π : Type} [DecidableEq Λ]
    (s : Store σ Λ π) (l : Λ) :
    spliceUnsubscribe s l = { s with listeners := s.listeners.erase l } := by
  unfold spliceUnsubscribe
  have key : ∀ (L : List Λ),
      (match jsIndexOf l L with
        | some i => L.eraseIdx i
        | none => L) = L.erase l := by
    intro L
    induction L with
    | nil => rfl
    | cons a L ih =>
      by_cases hal : a = l
      · subst hal
        simp [jsIndexOf, List.eraseIdx, List.erase_cons_head]
      · have hbeq : (a == l) = false := beq_eq_false_iff_ne.2 hal
        rw [List.erase_cons_tail (by simp [hbeq])]
        show (match jsIndexOf l (a :: L) with
          | some i => (a :: L).eraseIdx i
          | none => a :: L) = a :: L.erase l
        rw [jsIndexOf, if_neg hal]
        cases hfi : jsIndexOf l L with
        | none =>
          simp only [hfi] at ih
          rw [← ih]
          rfl
        | some i =>
          simp only [hfi] at ih
          rw [← ih]
          rfl
  cases hm : jsIndexOf l s.listeners with
  | none => rw [← key s.listeners, hm]
  | some i => rw [← key s.listeners, hm]

theorem props_append_assoc : (a : Props) → ∀ b c : Props,
    (a.append b).append c = a.append (b.append c)
  | Props.nil, _, _ => rfl
  | Props.cons k v rest, b, c =>
    congrArg (Props.cons k v) (props_append_assoc rest b c)

theorem props_append_nil_right : (a : Props) → a.append Props.nil = a
  | Props.nil => rfl
  | Props.cons k v rest => congrArg (Props.cons k v) (props_append_nil_right rest)

theorem domlist_append_nil_right : (ds : DOMList) → ds.append DOMList.nil = ds
  | DOMList.nil => rfl
  | DOMList.cons d rest => congrArg (DOMList.cons d) (domlist_append_nil_right rest)

theorem domlist_append_assoc : (a : DOMList) → ∀ b c : DOMList,
    (a.append b).append c = a.append (b.append c)
  | DOMList.nil, _, _ => rfl
  | DOMList.cons d rest, b, c =>
    congrArg (DOMList.cons d) (domlist_append_assoc rest b c)

theorem hasKey_append : (a : Props) → ∀ (b : Props) (k : String),
    hasKey (a.append b) k = (hasKey a k || hasKey b k)
  | Props.nil, _, _ => rfl
  | Props.cons k0 v0 rest, b, k => by
    show ((k0 == k) || hasKey (rest.append b) k) = (((k0 == k) || hasKey rest k) || hasKey b k)
    rw [hasKey_append rest b k, Bool.or_assoc]

theorem jsSet_fresh : (ps : Props) → ∀ (k : String) (v : PropVal),
    hasKey ps k = false →
    jsSet ps k v = ps.append (Props.cons k v Props.nil)
  | Props.nil, _, _, _ => rfl
  | Props.cons k0 v0 rest, k, v, h => by
    have h2 : ((k0 == k) || hasKey rest k) = false := h
    rw [Bool.or_eq_false_iff] at h2
    show (if k0 == k then Props.cons k0 v rest
          else Props.cons k0 v0 (jsSet rest k v)) = _
    rw [if_neg (by simp [h2.1])]
    exact congrArg (Props.cons k0 v0) (jsSet_fresh rest k v h2.2)

theorem assignProps_fresh : (es : Props) → ∀ (ps : Props),
    distinctKeys es = true →
    (∀ k, hasKey es k = true → hasKey ps k = false) →
    assignProps ps es = ps.append (stripChildren es)
  | Props.nil, ps, _, _ => (props_append_nil_right ps).symm
  | Props.cons k v rest, ps, hd, hfresh => by
    have hd2 : (!(hasKey rest k) && distinctKeys rest) = true := hd
    rw [Bool.and_eq_true, Bool.not_eq_true'] at hd2
    by_cases hk : (k == "children") = true
    · show (if k == "children" then assignProps ps rest
            else assignProps (jsSet ps k v) rest) = ps.append
          (if k == "children" then stripChildren rest
           else Props.cons k v (stripChildren rest))
      rw [if_pos hk, if_pos hk]
      exact assignProps_fresh rest ps hd2.2
        (fun k2 h2 => hfresh k2 (by show ((k == k2) || hasKey rest k2) = true; simp [h2]))
    · show (if k == "children" then assignProps ps rest
            else assignProps (jsSet ps k v) rest) = ps.append
          (if k == "children" then stripChildren rest
           else Props.cons k v (stripChildren rest))
      rw [if_neg hk, if_neg hk]
      have hpk : hasKey ps k = false :=
        hfresh k (by show ((k == k) || hasKey rest k) = true; simp)
      rw [jsSet_fresh ps k v hpk]
      rw [assignProps_fresh rest (ps.append (Props.cons k v Props.nil)) hd2.2 ?fresh2]
      · rw [props_append_assoc]
        rfl
      case fresh2 =>
        intro k2 h2
        rw [hasKey_append]
        have h1 : hasKey ps k2 = false :=
          hfresh k2 (by show ((k == k2) || hasKey rest k2) = true; simp [h2])
        have hne : (k == k2) = false := by
          apply beq_eq_false_iff_ne.2
          intro hkk
          rw [hkk] at hd2
          exact absurd hd2.1 (by simp [h2])
        simp [h1, hasKey, hne]

mutual

/-- On every well-formed tree the materializer succeeds and produces
exactly the isomorphic image described by the spec. -/
theorem renderElement_eq_spec : (v : VNode) → wf v = true →
    renderElement v = some (specMaterialize v)
  | VNode.text _, _ => rfl
  | VNode.elem _ OptProps.none, _ => rfl
  | VNode.elem t (OptProps.some es), h => by
    have hw : (distinctKeys es && wfEntries es) = true := h
    rw [Bool.and_eq_true] at hw
    show (match applyEntries es Props.nil DOMList.nil with
          | some (ps, cs) => some (DOMNode.element t ps cs)
          | none => none) =
        some (DOMNode.element t (stripChildren es) (specChildren es))
    rw [applyEntries_eq_spec es Props.nil DOMList.nil hw.2]
    have h1 : assignProps Props.nil es = stripChildren es := by
      have h0 := assignProps_fresh es Props.nil hw.1 (fun _ _ => rfl)
      simpa [Props.append] using h0
    rw [h1]
    rfl
termination_by v _ => sizeOf v
decreasing_by
  all_goals (simp <;> omega)

/-- Characterization of the entry walk on well-formed entries. -/
theorem applyEntries_eq_spec : (es : Props) → ∀ (ps : Props) (cs : DOMList),
    wfEntries es = true →
    applyEntries es ps cs = some (assignProps ps es, cs.append (specChildren es))
  | Props.nil, ps, cs, _ => by
    show some (ps, cs) = some (ps, cs.append DOMList.nil)
    rw [domlist_append_nil_right cs]
  | Props.cons k (PropVal.str s) rest, ps, cs, h => by
    rw [wfEntries, Bool.and_eq_true] at h
    rw [assignProps, specChildren]
    by_cases hk : (k == "children") = true
    · rw [wfEntry, hk] at h
      exact absurd h.1 (by simp)
    · show (if k == "children" then _
          else applyEntries rest (jsSet ps k (PropVal.str s)) cs) = _
      rw [if_neg hk, if_neg hk, if_neg hk]
      rw [applyEntries_eq_spec rest (jsSet ps k (PropVal.str s)) cs h.2]
      rfl
  | Props.cons k (PropVal.nodes vs) rest, ps, cs, h => by
    rw [wfEntries, Bool.and_eq_true] at h
    rw [assignProps, specChildren]
    by_cases hk : (k == "children") = true
    · rw [wfEntry, if_pos hk] at h
      show (if k == "children" then
          (match renderList vs with
           | some ds => applyEntries rest ps (cs.append ds)
           | none => none)
        else applyEntries rest (jsSet ps k (PropVal.nodes vs)) cs) = _
      rw [if_pos hk, if_pos hk, if_pos hk]
      rw [renderList_eq_spec vs h.1]
      show applyEntries rest ps (cs.append (specList vs)) = _
      rw [applyEntries_eq_spec rest ps (cs.append (specList vs)) h.2]
      show _ = some (assignProps ps rest,
        cs.append ((specChildValue (PropVal.nodes vs)).append (specChildren rest)))
      rw [specChildValue, domlist_append_assoc]
    · show (if k == "children" then _
          else applyEntries rest (jsSet ps k (PropVal.nodes vs)) cs) = _
      rw [if_neg hk, if_neg hk, if_neg hk]
      rw [applyEntries_eq_spec rest (jsSet ps k (PropVal.nodes vs)) cs h.2]
      rfl
termination_by es _ _ _ => sizeOf es
decreasing_by
  all_goals (simp <;> omega)

/-- Child arrays materialize pointwise, in order. -/
theorem renderList_eq_spec : (vs : VNodeList) → wfList vs = true →
    renderList vs = some (specList vs)
  | VNodeList.nil, _ => rfl
  | VNodeList.cons v vs, h => by
    have h2 : (wf v && wfList vs) = true := h
    rw [Bool.and_eq_true] at h2
    show (match renderElement v, renderList vs with
          | some d, some ds => some (DOMList.cons d ds)
          | _, _ => none) = some (DOMList.cons (specMaterialize v) (specList vs))
    rw [renderElement_eq_spec v h2.1, renderList_eq_spec vs h2.2]
termination_by vs _ => sizeOf vs
decreasing_by
  all_goals (simp <;> omega)

end

theorem jsLookup_jsSet_self : (m : Props) → ∀ (k : String) (v : PropVal),
    jsLookup (jsSet m k v) k = some v
  | Props.nil, k, v => by simp [jsSet, jsLookup]
  | Props.cons k0 v0 rest, k, v => by
    by_cases h0 : (k0 == k) = true
    · simp [jsSet, jsLookup, h0]
    · simp [jsSet, jsLookup, h0, jsLookup_jsSet_self rest k v]

theorem jsLookup_jsSet_ne : (m : Props) → ∀ (k : String) (v : PropVal) (k2 : String),
    (k == k2) = false → jsLookup (jsSet m k v) k2 = jsLookup m k2
  | Props.nil, k, v, k2, hne => by simp [jsSet, jsLookup, hne]
  | Props.cons k0 v0 rest, k, v, k2, hne => by
    by_cases h0 : (k0 == k) = true
    · have h02 : (k0 == k2) = false := by
        have hk0 : k0 = k := by rwa [beq_iff_eq] at h0
        rwa [hk0]
      simp [jsSet, jsLookup, h0, h02]
    · by_cases h02 : (k0 == k2) = true
      · simp [jsSet, jsLookup, h0, h02]
      · simp [jsSet, jsLookup, h0, h02, jsLookup_jsSet_ne rest k v k2 hne]

theorem keys_jsSet : (m : Props) → ∀ (k : String) (v : PropVal),
    hasKey m k = true → (jsSet m k v).keys = m.keys
  | Props.nil, k, v, h => by simp [hasKey] at h
  | Props.cons k0 v0 rest, k, v, h => by
    by_cases h0 : (k0 == k) = true
    · simp [jsSet, h0, Props.keys]
    · have h2 : hasKey rest k = true := by
        have hh : ((k0 == k) || hasKey rest k) = true := h
        simpa [h0] using hh
      simp [jsSet, h0, Props.keys, keys_jsSet rest k v h2]

theorem hasKey_of_jsLookup : (m : Props) → ∀ (k : String) (v : PropVal),
    jsLookup m k = some v → hasKey m k = true
  | Props.nil, k, v, h => by simp [jsLookup] at h
  | Props.cons k0 v0 rest, k, v, h => by
    by_cases h0 : (k0 == k) = true
    · simp [hasKey, h0]
    · rw [jsLookup, if_neg h0] at h
      simp [hasKey, h0, hasKey_of_jsLookup rest k v h]

end Frame

/-- C2: `dispatch(action)` replaces the state `S` held by the store with
`reducer(S, action)` (so `getState()` afterwards returns exactly that
value), and the notification log is exactly the list of currently
subscribed listener handles, so each subscribed listener entry is called
exactly once per dispatch. -/
theorem Frame.dispatch_replaces_state_and_notifies_each_listener_once
    {σ Λ π : Type} (s : Frame.Store σ Λ π) (a : Frame.Action π) :
    ((s.dispatch a).1.getState = s.reducer (some s.state) a) ∧
    (s.dispatch a).2 = s.listeners :=
  ⟨rfl, rfl⟩

/-- C4: `createStore(reducer)` computes the state exactly once at
construction as `reducer(undefined, { type: '__INIT__' })` — the sentinel
action — so `getState()` before any dispatch returns that value; and
afterwards only `dispatch` ever changes the state slot, by wholesale
replacement with `reducer(S, action)` (subscribe and both unsubscribe
variants leave the state slot untouched). -/
theorem Frame.createStore_sentinel_init
    {σ Λ π : Type} [DecidableEq Λ] (r : Option σ → Frame.Action π → σ) :
    (Frame.createStore r : Frame.Store σ Λ π).getState = r none ⟨"__INIT__", none⟩ ∧
    ∀ (s : Frame.Store σ Λ π) (l : Λ) (a : Frame.Action π),
      (s.subscribe l).state = s.state ∧
      (Frame.frameUnsubscribe s l).1.state = s.state ∧
      (Frame.spliceUnsubscribe s l).state = s.state ∧
      (s.dispatch a).1.state = s.reducer (some s.state) a := by
  refine ⟨rfl, fun s l a => ⟨rfl, rfl, ?_, rfl⟩⟩
  rw [Frame.spliceUnsubscribe_eq_erase]

/-- C1 (failing input for the `src/frame.js` version): subscribe a single
listener (handle `0`) to a fresh counter store, invoke the unsubscribe
capability returned by `subscribe`, then dispatch one action.  The
capability body `() => listeners.filter(l => l !== listener)` never
assigns the filtered array back, so the listener is still registered and
is called once by the following dispatch, where the claim demands zero
notifications after unsubscribing. -/
theorem Frame.unsubscribe_broken_still_notifies :
    ((Frame.frameUnsubscribe
        ((Frame.createStore Frame.incReducer : Frame.Store Nat Nat Unit).subscribe 0)
        0).1.dispatch ⟨"INC", none⟩).2.count 0 = 1 := by
  decide

/-- C8: `subscribe` appends to the listener array without deduplication,
so `n` subscriptions of the same listener handle are `n` independent
entries, and a dispatch notifies that handle exactly `n` more times than
it would have before those subscriptions. -/
theorem Frame.subscribe_no_dedup_notifies_n_times
    {σ Λ π : Type} [DecidableEq Λ] (s : Frame.Store σ Λ π) (l : Λ) (n : Nat)
    (a : Frame.Action π) :
    (s.subscribe l).listeners = s.listeners ++ [l] ∧
    ((s.subscribeN l n).dispatch a).2.count l = s.listeners.count l + n := by
  refine ⟨rfl, ?_⟩
  induction n with
  | zero => rfl
  | succ n ih =>
    show ((s.subscribeN l n).listeners ++ [l]).count l = s.listeners.count l + (n + 1)
    rw [List.count_append]
    have hlog : ((s.subscribeN l n).dispatch a).2 = (s.subscribeN l n).listeners := rfl
    rw [hlog] at ih
    simp [ih]
    omega

/-- C7 (counterexample): subscribe the same listener handle `0` twice,
then invoke the unsubscribe capability twice (tutorial `splice` variant).
The first invocation removes one entry; the second invocation is not a
no-op: `indexOf` finds the remaining entry of the same listener and
removes it too, so the listener set changes again. -/
theorem Frame.double_unsubscribe_removes_second_instance :
    (Frame.spliceUnsubscribe (Frame.spliceUnsubscribe
        (((Frame.createStore Frame.incReducer : Frame.Store Nat Nat Unit).subscribe
          0).subscribe 0) 0) 0).listeners ≠
    (Frame.spliceUnsubscribe
        (((Frame.createStore Frame.incReducer : Frame.Store Nat Nat Unit).subscribe
          0).subscribe 0) 0).listeners := by
  decide

/-- C7 (amended): invoking an unsubscribe capability whose listener is no
longer present in the active set is a no-op (no failure, no effect on the
listener set); consequently invoking a capability a second time is a
no-op whenever its listener is subscribed at most once.  (When the same
listener is subscribed several times, a second invocation instead removes
a further instance — see the counterexample.) -/
theorem Frame.unsubscribe_absent_noop
    {σ Λ π : Type} [DecidableEq Λ] (s : Frame.Store σ Λ π) (l : Λ) :
    (l ∉ s.listeners → Frame.spliceUnsubscribe s l = s) ∧
    (s.listeners.count l ≤ 1 →
      Frame.spliceUnsubscribe (Frame.spliceUnsubscribe s l) l =
        Frame.spliceUnsubscribe s l) := by
  constructor
  · intro h
    rw [Frame.spliceUnsubscribe_eq_erase, List.erase_of_not_mem h]
  · intro h
    simp only [Frame.spliceUnsubscribe_eq_erase]
    have hnm : l ∉ s.listeners.erase l := by
      have hc : (s.listeners.erase l).count l = 0 := by
        rw [List.count_erase_self]
        omega
      exact List.count_eq_zero.1 hc
    rw [List.erase_of_not_mem hnm]

/-- C7 (witness): on a fresh store with no listeners, unsubscribing the
absent listener `0` is a no-op, and a double invocation equals a single
one. -/
theorem Frame.unsubscribe_absent_noop_witness :
    (Frame.spliceUnsubscribe (Frame.createStore Frame.incReducer :
        Frame.Store Nat Nat Unit) 0 =
      (Frame.createStore Frame.incReducer : Frame.Store Nat Nat Unit)) ∧
    (Frame.spliceUnsubscribe (Frame.spliceUnsubscribe
        (Frame.createStore Frame.incReducer : Frame.Store Nat Nat Unit) 0) 0 =
      Frame.spliceUnsubscribe (Frame.createStore Frame.incReducer :
        Frame.Store Nat Nat Unit) 0) :=
  ⟨(Frame.unsubscribe_absent_noop (Frame.createStore Frame.incReducer) 0).1
      (by simp [Frame.createStore]),
   (Frame.unsubscribe_absent_noop (Frame.createStore Frame.incReducer) 0).2
      (by simp [Frame.createStore])⟩

/-- C3: on every tree satisfying the VNode data-model invariant `wf`,
`render(T, container)` leaves the container holding exactly one
materialized subtree, and that subtree is `specMaterialize T` — the
isomorphic image of `T` written from the spec: tag names, attribute
values (the non-`children` entries, in order), child order, and text
content are preserved exactly, and a string vNode becomes a text node
wrapping the identical string. -/
theorem Frame.render_isomorphic (T : Frame.VNode) (c : Frame.DOMList)
    (h : Frame.wf T = true) :
    Frame.render T c =
      some (Frame.DOMList.cons (Frame.specMaterialize T) Frame.DOMList.nil) := by
  rw [Frame.render, Frame.renderElement_eq_spec T h]
  rfl

/-- C3 (witness): the spec's scenario tree
`createElement('div', {id:'a'}, 'hello', createElement('span', {}, 'world'))`
is well-formed and renders to the single isomorphic subtree. -/
theorem Frame.render_isomorphic_witness :
    Frame.wf Frame.demoTree = true ∧
    Frame.render Frame.demoTree Frame.DOMList.nil =
      some (Frame.DOMList.cons (Frame.specMaterialize Frame.demoTree)
        Frame.DOMList.nil) :=
  ⟨by decide, Frame.render_isomorphic Frame.demoTree Frame.DOMList.nil (by decide)⟩

/-- C5: `render` first discards all existing children of the container,
so its result does not depend on the prior container content, and calling
it twice in succession with the same tree leaves the container exactly as
a single call does — no duplication, no leftover children. -/
theorem Frame.render_idempotent (T : Frame.VNode) (c : Frame.DOMList) :
    (Frame.render T c).bind (fun c2 => Frame.render T c2) = Frame.render T c ∧
    Frame.render T c = Frame.render T Frame.DOMList.nil := by
  cases h : Frame.renderElement T with
  | none => simp [Frame.render, h]
  | some d => simp [Frame.render, h]

/-- C10: materializing an element whose `props` is absent, `null` or
`undefined` does not fail: the guard `vNode.props || {}` makes the entry
walk empty, so the result is the element of the given tag with no
properties assigned and no children appended. -/
theorem Frame.renderElement_missing_props (t : String) :
    Frame.renderElement (Frame.VNode.elem t Frame.OptProps.none) =
      some (Frame.DOMNode.element t Frame.Props.nil Frame.DOMList.nil) := rfl

/-- C6: `createElement(tag, attrs, ...children)` is a pure construction
returning the element node whose props object is the shallow union of
the given attributes plus a `children` entry holding the ordered list of
the children arguments exactly as passed (the rest parameter collects
the arguments into one list and nothing is flattened further): looking
up `children` yields that exact list, and looking up any other key yields
exactly its value in the given attributes. -/
theorem Frame.createElement_spec (t : String) (attrs : Frame.Props)
    (cs : Frame.VNodeList) :
    Frame.createElement t attrs cs =
      Frame.VNode.elem t (Frame.OptProps.some
        (Frame.jsSet attrs "children" (Frame.PropVal.nodes cs))) ∧
    Frame.jsLookup (Frame.jsSet attrs "children" (Frame.PropVal.nodes cs))
      "children" = some (Frame.PropVal.nodes cs) ∧
    ∀ k, k ≠ "children" →
      Frame.jsLookup (Frame.jsSet attrs "children" (Frame.PropVal.nodes cs)) k =
        Frame.jsLookup attrs k := by
  refine ⟨rfl, Frame.jsLookup_jsSet_self attrs "children" (Frame.PropVal.nodes cs), ?_⟩
  intro k hk
  exact Frame.jsLookup_jsSet_ne attrs "children" (Frame.PropVal.nodes cs) k
    (beq_eq_false_iff_ne.2 (Ne.symm hk))

/-- C6 (witness): for `createElement('div', {id:'a'})` the props object
maps `children` to the empty child list and keeps `id` at its given
value. -/
theorem Frame.createElement_spec_witness :
    Frame.jsLookup (Frame.jsSet (Frame.Props.cons "id" (Frame.PropVal.str "a")
        Frame.Props.nil) "children" (Frame.PropVal.nodes Frame.VNodeList.nil))
      "children" = some (Frame.PropVal.nodes Frame.VNodeList.nil) ∧
    Frame.jsLookup (Frame.jsSet (Frame.Props.cons "id" (Frame.PropVal.str "a")
        Frame.Props.nil) "children" (Frame.PropVal.nodes Frame.VNodeList.nil))
      "id" = Frame.jsLookup (Frame.Props.cons "id" (Frame.PropVal.str "a")
        Frame.Props.nil) "id" :=
  ⟨(Frame.createElement_spec "div" (Frame.Props.cons "id" (Frame.PropVal.str "a")
      Frame.Props.nil) Frame.VNodeList.nil).2.1,
   (Frame.createElement_spec "div" (Frame.Props.cons "id" (Frame.PropVal.str "a")
      Frame.Props.nil) Frame.VNodeList.nil).2.2 "id" (by decide)⟩

/-- C9: when the attributes passed to `createElement` already contain a
`children` key, the resulting node's props object still maps `children`
to the list built from the variadic children arguments — the entry is
silently overwritten in place (the key list, hence key order, is exactly
that of the given attributes).  The construction is pure: the caller's
attributes value is read, never modified. -/
theorem Frame.children_key_overwritten (t : String) (attrs : Frame.Props)
    (cs : Frame.VNodeList) (v0 : Frame.PropVal)
    (h : Frame.jsLookup attrs "children" = some v0) :
    ∃ ps, Frame.createElement t attrs cs =
        Frame.VNode.elem t (Frame.OptProps.some ps) ∧
      Frame.jsLookup ps "children" = some (Frame.PropVal.nodes cs) ∧
      ps.keys = attrs.keys :=
  ⟨Frame.jsSet attrs "children" (Frame.PropVal.nodes cs), rfl,
    Frame.jsLookup_jsSet_self attrs "children" (Frame.PropVal.nodes cs),
    Frame.keys_jsSet attrs "children" (Frame.PropVal.nodes cs)
      (Frame.hasKey_of_jsLookup attrs "children" v0 h)⟩

/-- C9 (witness): attributes `{children:'x'}` are overwritten by the
empty variadic list, with the key list preserved. -/
theorem Frame.children_key_overwritten_witness :
    ∃ ps, Frame.createElement "div"
        (Frame.Props.cons "children" (Frame.PropVal.str "x") Frame.Props.nil)
        Frame.VNodeList.nil = Frame.VNode.elem "div" (Frame.OptProps.some ps) ∧
      Frame.jsLookup ps "children" = some (Frame.PropVal.nodes Frame.VNodeList.nil) ∧
      ps.keys = (Frame.Props.cons "children" (Frame.PropVal.str "x")
        Frame.Props.nil).keys :=
  Frame.children_key_overwritten "div"
    (Frame.Props.cons "children" (Frame.PropVal.str "x") Frame.Props.nil)
    Frame.VNodeList.nil (Frame.PropVal.str "x") (by decide)
